import Mathlib

set_option autoImplicit false

/-! Shallow embedding of the lightspark policy acquisition-and-evaluation engine
(src/backends/security.h) and of the sync_stream bounded buffer (src/streams.h).

The repository ships only the two headers; method bodies living in the
corresponding .cpp files are absent. Functions whose bodies are inline in the
headers are translated directly; the remaining operations are modelled from the
specification, each marked by a doc comment beginning with the words Modelled
from the spec. -/

/-- URL components. Modelled from the spec: the URL/domain utility collaborator
(excluded from the repository) parses a URL string into scheme/host/port/path. -/
structure URLInfo where
  protocol : String
  hostname : String
  port : Nat
  path : String
  deriving DecidableEq

/-- Modelled from the spec: URLs are classified as remote or local by scheme;
a file scheme URL is local. -/
def URLInfo.isLocal (u : URLInfo) : Bool :=
  u.protocol == "file"

/-- Does the character list cs begin with the character list ps? -/
def beginsWith : List Char → List Char → Bool
  | _, [] => true
  | [], _ :: _ => false
  | c :: cs, p :: ps => c == p && beginsWith cs ps

/-- Does the character list cs end with the character list ss? -/
def finishesWith (cs ss : List Char) : Bool :=
  beginsWith cs.reverse ss.reverse

/-- Modelled from the spec: the URL/domain utility collaborator parses a URL
string of the shape scheme://host/path into its components; the port defaults by
scheme. Used by the tiny_string overloads, which construct URLInfo(url). -/
def URLInfo.fromString (s : String) : URLInfo :=
  let cs := s.data
  let protoChars := cs.takeWhile (fun c => c != ':')
  let rest := cs.drop (protoChars.length + 3)
  let hostChars := rest.takeWhile (fun c => c != '/')
  let pathChars := rest.drop hostChars.length
  let proto := String.mk protoChars
  { protocol := proto
    hostname := String.mk hostChars
    port :=
      if proto == "https" then 443
      else if proto == "http" then 80
      else if proto == "ftp" then 21
      else 0
    path := if pathChars.isEmpty then "/" else String.mk pathChars }

/-- Modelled from the spec: the host-pattern comparison used by grant matching
supports an exact host, a leading-wildcard subdomain pattern, and the
single-character match-all wildcard. -/
def matchesDomain (pattern host : String) : Bool :=
  match pattern.data with
  | ['*'] => true
  | '*' :: rest => finishesWith host.data rest
  | _ => pattern == host

/-- Modelled from the spec: the directory part of a path, up to and including
the last path separator. Used by the local-directory restriction. -/
def directoryOf (p : String) : String :=
  String.mk ((p.data.reverse.dropWhile (fun c => c != '/')).reverse)

/-- SecurityManager::SANDBOXTYPE, security.h line 39: bit-flag values
REMOTE=1, LOCAL_WITH_FILE=2, LOCAL_WITH_NETWORK=4, LOCAL_TRUSTED=8. -/
inductive SANDBOXTYPE where
  | REMOTE
  | LOCAL_WITH_FILE
  | LOCAL_WITH_NETWORK
  | LOCAL_TRUSTED
  deriving DecidableEq

/-- The numeric bit-flag value of each sandbox type (security.h line 39). -/
def SANDBOXTYPE.val : SANDBOXTYPE → Nat
  | .REMOTE => 1
  | .LOCAL_WITH_FILE => 2
  | .LOCAL_WITH_NETWORK => 4
  | .LOCAL_TRUSTED => 8

/-- SecurityManager::EVALUATIONRESULT, security.h lines 109-110. -/
inductive EVALUATIONRESULT where
  | ALLOWED
  | NA_RESTRICT_LOCAL_DIRECTORY
  | NA_REMOTE_SANDBOX
  | NA_LOCAL_SANDBOX
  | NA_CROSSDOMAIN_POLICY
  deriving DecidableEq

/-- PolicySiteControl::METAPOLICYTYPE, security.h lines 212-219. -/
inductive METAPOLICYTYPE where
  | ALL
  | BY_CONTENT_TYPE
  | BY_FTP_FILENAME
  | MASTER_ONLY
  | NONE
  | NONE_THIS_RESPONSE
  deriving DecidableEq

/-- PolicySiteControl, security.h lines 209-226 (the back-pointer to the owning
file is dropped; the value object holds the meta-policy). -/
structure PolicySiteControl where
  permittedCrossDomainPolicies : METAPOLICYTYPE
  deriving DecidableEq

/-- PortRange, security.h lines 228-249. uint16_t ports are embedded as Nat;
the claims quantify only over 0-65535. -/
structure PortRange where
  startPort : Nat
  endPort : Nat
  isRange : Bool
  matchAll : Bool
  deriving DecidableEq

/-- PortRange::matches, security.h lines 238-248, translated literally: the
range branch returns startPort >= port && endPort <= port exactly as the source
writes it. -/
def PortRange.matches (r : PortRange) (port : Nat) : Bool :=
  if r.matchAll then true
  else if r.isRange then
    decide (r.startPort ≥ port) && decide (r.endPort ≤ port)
  else r.startPort == port

/-- URLPolicyFile::SUBTYPE, security.h line 181. -/
inductive SUBTYPE where
  | HTTP
  | HTTPS
  | FTP
  deriving DecidableEq

/-- PolicyAllowAccessFrom, security.h lines 252-269 (the back-pointer to the
owning file is dropped; the owning file is passed where needed). -/
structure PolicyAllowAccessFrom where
  domain : String
  toPorts : List PortRange
  secure : Bool
  deriving DecidableEq

/-- Modelled from the spec: the secure flag of an allow-access-from grant has a
subtype-dependent default when not specified (true for HTTPS, false otherwise);
the constructor body is in security.cpp, absent from the headers. -/
def mkPolicyAllowAccessFrom (sub : SUBTYPE) (domain : String) (toPorts : List PortRange)
    (secureValue secureSpecified : Bool) : PolicyAllowAccessFrom :=
  { domain := domain
    toPorts := toPorts
    secure := if secureSpecified then secureValue else sub == SUBTYPE.HTTPS }

/-- PolicyAllowHTTPRequestHeadersFrom, security.h lines 272-289. -/
structure PolicyAllowHTTPRequestHeadersFrom where
  domain : String
  headers : List String
  secure : Bool
  deriving DecidableEq

/-- URLPolicyFile, security.h lines 137-205. PolicyFile (abstract base) and its
only concrete subclass URLPolicyFile are flattened into one structure; the
fields are those of the two classes (url, valid, ignore, loaded, siteControl,
allowAccessFrom from PolicyFile; originalURL, subtype,
allowHTTPRequestHeadersFrom from URLPolicyFile). -/
structure URLPolicyFile where
  url : URLInfo
  originalURL : URLInfo
  subtype : SUBTYPE
  valid : Bool
  ignore : Bool
  loaded : Bool
  siteControl : Option PolicySiteControl
  allowAccessFrom : List PolicyAllowAccessFrom
  allowHTTPRequestHeadersFrom : List PolicyAllowHTTPRequestHeadersFrom
  deriving DecidableEq

/-- Modelled from the spec: the subtype of a URL policy file is derived from the
URL scheme (HTTP/HTTPS/FTP); an unrecognized scheme makes the file invalid. -/
def subtypeOfScheme (s : String) : Option SUBTYPE :=
  if s == "http" then some SUBTYPE.HTTP
  else if s == "https" then some SUBTYPE.HTTPS
  else if s == "ftp" then some SUBTYPE.FTP
  else none

/-- Modelled from the spec: a URLPolicyFile is constructed in an unloaded state
referencing its URL; originalURL records the URL first requested, before any
redirect; subtype is derived from the scheme; valid is false for a malformed
URL. The constructor body is in security.cpp, absent from the headers. -/
def mkURLPolicyFile (u : URLInfo) : URLPolicyFile :=
  { url := u
    originalURL := u
    subtype := (subtypeOfScheme u.protocol).getD SUBTYPE.HTTP
    valid := (subtypeOfScheme u.protocol).isSome
    ignore := false
    loaded := false
    siteControl := none
    allowAccessFrom := []
    allowHTTPRequestHeadersFrom := [] }

/-- Modelled from the spec: a redirect changes the effective fetch URL of a
policy file but never its originalURL. -/
def URLPolicyFile.followRedirect (f : URLPolicyFile) (effective : URLInfo) : URLPolicyFile :=
  { f with url := effective }

/-- Modelled from the spec: isMaster is true iff the path of the originally
requested URL (before following any redirect) is exactly the well-known
master-policy path /crossdomain.xml at the domain root; the body is in
security.cpp, absent from the headers. -/
def URLPolicyFile.isMaster (f : URLPolicyFile) : Bool :=
  f.originalURL.path == "/crossdomain.xml"

/-- Modelled from the spec: URLPolicyFile::allowsAccessFrom(url, to) is true iff
the file is valid, not ignored, and some allow-access-from grant matches: its
domain pattern matches the host of url, for non-HTTP subtypes some port entry
matches the port of to, and the secure flag is compatible with the scheme of to
(an HTTPS target requires secure=true). The body is in security.cpp, absent
from the headers. -/
def URLPolicyFile.allowsAccessFrom (f : URLPolicyFile) (url toURL : URLInfo) : Bool :=
  f.valid && !f.ignore &&
  f.allowAccessFrom.any (fun g =>
    matchesDomain g.domain url.hostname &&
    (f.subtype == SUBTYPE.HTTP || g.toPorts.any (fun r => r.matches toURL.port)) &&
    (toURL.protocol != "https" || g.secure))

/-- Modelled from the spec: load() completes the fetch-and-parse of the file and
sets loaded=true exactly once; the transport and parsing collaborators are
external, so the model treats the parsed content carried by the file as given
and load() as the transition to the loaded state. -/
def loadFile (f : URLPolicyFile) : URLPolicyFile :=
  { f with loaded := true }

/-- SecurityManager, security.h lines 36-131. The two registries are the
multimaps of lines 47 and 49, embedded as association lists keyed by domain;
sandboxType, exactSettings and exactSettingsLocked are the fields of lines
52-56. The origin field is the requesting origin document URL that the spec has
evaluatePoliciesURL and evaluateLocalDirectoryURL judge against. -/
structure SecurityManager where
  pendingURLPolicyFiles : List (String × URLPolicyFile)
  loadedURLPolicyFiles : List (String × URLPolicyFile)
  sandboxType : SANDBOXTYPE
  exactSettings : Bool
  exactSettingsLocked : Bool
  origin : URLInfo
  deriving DecidableEq

/-- Modelled from the spec: evaluateSandbox(sandbox, allowedSandboxes) returns
true iff sandbox & allowedSandboxes != 0; the body is in security.cpp, absent
from the headers. -/
def SecurityManager.evaluateSandbox (sandbox : SANDBOXTYPE) (allowedSandboxes : Nat) : Bool :=
  Nat.land sandbox.val allowedSandboxes != 0

/-- The single-argument overload of evaluateSandbox, inline in security.h lines
104-105: it forwards to the two-argument form with the active sandbox type. -/
def SecurityManager.evaluateSandboxCurrent (st : SecurityManager) (allowedSandboxes : Nat) : Bool :=
  SecurityManager.evaluateSandbox st.sandboxType allowedSandboxes

/-- SecurityManager::setExactSettings, inline in security.h lines 93-99: both
fields are written only while exactSettingsLocked is false. -/
def SecurityManager.setExactSettings (st : SecurityManager) (settings locked : Bool) : SecurityManager :=
  if st.exactSettingsLocked then st
  else { st with exactSettings := settings, exactSettingsLocked := locked }

/-- A sequence of setExactSettings calls, applied in order; each call is a pair
of the settings and locked arguments. -/
def applySettingsCalls (calls : List (Bool × Bool)) (st : SecurityManager) : SecurityManager :=
  calls.foldl (fun s c => s.setExactSettings c.1 c.2) st

/-- The loaded-registry bucket for a domain: the loaded files registered under
that domain key, in registration order. -/
def SecurityManager.loadedForDomain (st : SecurityManager) (domain : String) : List URLPolicyFile :=
  (st.loadedURLPolicyFiles.filter (fun p => p.1 == domain)).map Prod.snd

/-- The pending-registry bucket for a domain. -/
def SecurityManager.pendingForDomain (st : SecurityManager) (domain : String) : List URLPolicyFile :=
  (st.pendingURLPolicyFiles.filter (fun p => p.1 == domain)).map Prod.snd

/-- SecurityManager::getURLPolicyFileByURL, declared at security.h line 67.
Modelled from the spec: a linear lookup across both the pending and the loaded
map, restricted to the domain bucket of the URL; no-match if absent. -/
def SecurityManager.getURLPolicyFileByURL (st : SecurityManager) (url : URLInfo) :
    Option URLPolicyFile :=
  (st.pendingForDomain url.hostname ++ st.loadedForDomain url.hostname).find?
    (fun f => f.url == url)

/-- SecurityManager::loadPolicyFile, declared at security.h line 69. Modelled
from the spec: it triggers file.load(), then moves the file from the pending
map to the loaded map under its domain key. -/
def SecurityManager.loadPolicyFile (st : SecurityManager) (f : URLPolicyFile) : SecurityManager :=
  { st with
    pendingURLPolicyFiles :=
      st.pendingURLPolicyFiles.filter (fun p => !(p.1 == f.url.hostname && p.2 == f))
    loadedURLPolicyFiles :=
      st.loadedURLPolicyFiles ++ [(f.url.hostname, loadFile f)] }

/-- Modelled from the spec: when loadPendingPolicies is requested,
evaluatePoliciesURL first synchronously loads every pending policy file for the
target domain, moving each to the loaded map. -/
def SecurityManager.loadPendingForDomain (st : SecurityManager) (domain : String) : SecurityManager :=
  { st with
    pendingURLPolicyFiles := st.pendingURLPolicyFiles.filter (fun p => p.1 != domain)
    loadedURLPolicyFiles :=
      st.loadedURLPolicyFiles ++
        (st.pendingURLPolicyFiles.filter (fun p => p.1 == domain)).map
          (fun p => (p.1, loadFile p.2)) }

/-- Modelled from the spec: the effective meta-policy of a master file; the
default when no site-control element was parsed is MASTER_ONLY for the
HTTP/HTTPS/FTP subtypes. -/
def URLPolicyFile.metaPolicy (master : URLPolicyFile) : METAPOLICYTYPE :=
  match master.siteControl with
  | some sc => sc.permittedCrossDomainPolicies
  | none => METAPOLICYTYPE.MASTER_ONLY

/-- Modelled from the spec: whether a master file honors a policy file of its
domain: NONE and NONE_THIS_RESPONSE forbid every file, MASTER_ONLY honors only
the master file itself, the remaining meta-policies honor the file. -/
def honoredByMaster (master f : URLPolicyFile) : Bool :=
  match master.metaPolicy with
  | METAPOLICYTYPE.NONE => false
  | METAPOLICYTYPE.NONE_THIS_RESPONSE => false
  | METAPOLICYTYPE.MASTER_ONLY => f.isMaster
  | _ => true

/-- Modelled from the spec: the master policy file controlling a file is the
file itself when it is a master, and otherwise the master file loaded for its
domain, if any. -/
def SecurityManager.masterOf (st : SecurityManager) (f : URLPolicyFile) : Option URLPolicyFile :=
  if f.isMaster then some f
  else (st.loadedForDomain f.url.hostname).find? (fun m => m.isMaster)

/-- Modelled from the spec: a master-rooted grant chain authorizes the
requesting origin for a URL through a policy file f when f has a master, the
master honors f, and f grants access from the origin to the URL. -/
def SecurityManager.chainAllows (st : SecurityManager) (url : URLInfo) (f : URLPolicyFile) : Bool :=
  match st.masterOf f with
  | none => false
  | some m => honoredByMaster m f && f.allowsAccessFrom st.origin url

/-- SecurityManager::evaluatePoliciesURL, declared at security.h line 128.
Modelled from the spec: for remote URLs, optionally load the pending policy
files of the target domain, then require at least one loaded file of that
domain whose master-rooted grant chain authorizes the requesting origin;
failure is NA_CROSSDOMAIN_POLICY. -/
def SecurityManager.evaluatePoliciesURL (st : SecurityManager) (url : URLInfo)
    (loadPendingPolicies : Bool) : EVALUATIONRESULT :=
  if url.isLocal then EVALUATIONRESULT.ALLOWED
  else
    let st1 := if loadPendingPolicies then st.loadPendingForDomain url.hostname else st
    if (st1.loadedForDomain url.hostname).any (fun f => st1.chainAllows url f) then
      EVALUATIONRESULT.ALLOWED
    else EVALUATIONRESULT.NA_CROSSDOMAIN_POLICY

/-- SecurityManager::evaluateSandboxURL, declared at security.h lines 123-124.
Modelled from the spec: a local URL requires the allowed-local mask to include
the active sandbox type (failure NA_LOCAL_SANDBOX); a remote URL requires the
allowed-remote mask to include REMOTE (failure NA_REMOTE_SANDBOX). -/
def SecurityManager.evaluateSandboxURL (st : SecurityManager) (url : URLInfo)
    (allowedSandboxesRemote allowedSandboxesLocal : Nat) : EVALUATIONRESULT :=
  if url.isLocal then
    if SecurityManager.evaluateSandbox st.sandboxType allowedSandboxesLocal then
      EVALUATIONRESULT.ALLOWED
    else EVALUATIONRESULT.NA_LOCAL_SANDBOX
  else
    if SecurityManager.evaluateSandbox SANDBOXTYPE.REMOTE allowedSandboxesRemote then
      EVALUATIONRESULT.ALLOWED
    else EVALUATIONRESULT.NA_REMOTE_SANDBOX

/-- SecurityManager::evaluateLocalDirectoryURL, declared at security.h line 126.
Modelled from the spec: the path of the URL must be the origin document
directory or a subdirectory of it; failure is NA_RESTRICT_LOCAL_DIRECTORY. -/
def SecurityManager.evaluateLocalDirectoryURL (st : SecurityManager) (url : URLInfo) :
    EVALUATIONRESULT :=
  if beginsWith url.path.data (directoryOf st.origin.path).data then
    EVALUATIONRESULT.ALLOWED
  else EVALUATIONRESULT.NA_RESTRICT_LOCAL_DIRECTORY

/-- SecurityManager::evaluateURL (URLInfo overload), declared at security.h
lines 119-120. Modelled from the spec: in order and short-circuiting on the
first failure, the sandbox check, then (for a local URL under
restrictLocalDirectory) the local-directory check, then the policy check;
ALLOWED when no check fails. -/
def SecurityManager.evaluateURL (st : SecurityManager) (url : URLInfo)
    (loadPendingPolicies : Bool) (allowedSandboxesRemote allowedSandboxesLocal : Nat)
    (restrictLocalDirectory : Bool) : EVALUATIONRESULT :=
  let sandboxResult := st.evaluateSandboxURL url allowedSandboxesRemote allowedSandboxesLocal
  if sandboxResult ≠ EVALUATIONRESULT.ALLOWED then sandboxResult
  else
    let dirResult :=
      if url.isLocal && restrictLocalDirectory then st.evaluateLocalDirectoryURL url
      else EVALUATIONRESULT.ALLOWED
    if dirResult ≠ EVALUATIONRESULT.ALLOWED then dirResult
    else
      let policyResult := st.evaluatePoliciesURL url loadPendingPolicies
      if policyResult ≠ EVALUATIONRESULT.ALLOWED then policyResult
      else EVALUATIONRESULT.ALLOWED

/-- SecurityManager::evaluateURL (tiny_string overload), inline in security.h
lines 113-118: it constructs URLInfo(url) and forwards to the URLInfo overload
without passing restrictLocalDirectory, so that parameter's default value true
is always used. -/
def SecurityManager.evaluateURLStr (st : SecurityManager) (url : String)
    (loadPendingPolicies : Bool) (allowedSandboxesRemote allowedSandboxesLocal : Nat)
    (restrictLocalDirectory : Bool) : EVALUATIONRESULT :=
  st.evaluateURL (URLInfo.fromString url) loadPendingPolicies
    allowedSandboxesRemote allowedSandboxesLocal true

/-- Every entry of either registry map is keyed by the hostname of the file it
holds. -/
abbrev SecurityManager.keysWellFormed (st : SecurityManager) : Prop :=
  ∀ p ∈ st.pendingURLPolicyFiles ++ st.loadedURLPolicyFiles, p.1 = p.2.url.hostname

/-- No registered file other than f itself carries the URL of f (the
idempotence of addPolicyFile per distinct URL value). -/
abbrev SecurityManager.urlUniqueFor (st : SecurityManager) (f : URLPolicyFile) : Prop :=
  ∀ p ∈ st.pendingURLPolicyFiles ++ st.loadedURLPolicyFiles, p.2.url = f.url → p.2 = f

/-- The registry invariant: no file instance appears in both the pending and
the loaded map. -/
abbrev SecurityManager.mapsDisjoint (st : SecurityManager) : Prop :=
  ∀ p ∈ st.pendingURLPolicyFiles, ∀ q ∈ st.loadedURLPolicyFiles, p.2 ≠ q.2

/-- sync_stream, streams.h lines 23-44: a fixed-capacity byte ring with a
buffer, a read cursor (head) and buf_size; bytes are embedded as Nat. The
semaphore pair that counts free and used slots is represented by the explicit
count of readable bytes (used); the write cursor of the source is the derived
sync_stream.tail below. -/
structure sync_stream where
  buf_size : Nat
  buffer : List Nat
  head : Nat
  used : Nat
  deriving DecidableEq

/-- The write cursor: the source advances tail so that it stays head plus the
readable count, modulo the capacity. -/
def sync_stream.tail (s : sync_stream) : Nat :=
  (s.head + s.used) % s.buf_size

/-- Structural well-formedness of a ring state. -/
def sync_stream.wf (s : sync_stream) : Prop :=
  s.buffer.length = s.buf_size ∧ s.head < s.buf_size ∧ s.used ≤ s.buf_size

/-- Modelled from the spec: one producer step of xsputn; the byte is stored at
the write cursor, which then advances. The caller writes only after reserving
space (used < buf_size); a full buffer blocks the producer instead. -/
def sync_stream.writeByte (s : sync_stream) (b : Nat) : sync_stream :=
  { s with buffer := s.buffer.set s.tail b, used := s.used + 1 }

/-- Modelled from the spec: one consumer step of xsgetn; the oldest unread byte
at the read cursor is returned and the read cursor advances. The caller reads
only after reserving data (0 < used); an empty buffer blocks the consumer. -/
def sync_stream.readByte (s : sync_stream) : Nat × sync_stream :=
  (s.buffer.getD s.head 0,
   { s with head := (s.head + 1) % s.buf_size, used := s.used - 1 })

/-- The readable bytes of a ring state, oldest first. -/
def sync_stream.contents (s : sync_stream) : List Nat :=
  (List.range s.used).map (fun i => s.buffer.getD ((s.head + i) % s.buf_size) 0)

/-- Modelled from the spec: an interleaved single-producer/single-consumer run.
Each schedule entry is one blocking-free step: true lets the producer write its
next byte (only when space exists, since a full buffer blocks the producer),
false lets the consumer read one byte (only when data exists, since an empty
buffer blocks the consumer); a schedule demanding a blocked step is invalid.
Returns the final state, the bytes the producer has not yet written, and the
bytes the consumer has read, in order. -/
def runSchedule : List Bool → sync_stream → List Nat → List Nat →
    Option (sync_stream × List Nat × List Nat)
  | [], s, toWrite, acc => some (s, toWrite, acc)
  | true :: rest, s, toWrite, acc =>
    match toWrite with
    | [] => none
    | b :: bs =>
      if s.used < s.buf_size then runSchedule rest (s.writeByte b) bs acc
      else none
  | false :: rest, s, toWrite, acc =>
    if 0 < s.used then
      runSchedule rest (s.readByte).2 toWrite (acc ++ [(s.readByte).1])
    else none

/-- A freshly constructed ring of the given capacity: zeroed storage, both
cursors at zero, nothing readable. -/
def initStream (cap : Nat) : sync_stream :=
  { buf_size := cap, buffer := List.replicate cap 0, head := 0, used := 0 }

/-- A master policy file registration used by concrete instances below. -/
def sampleMasterFile : URLPolicyFile :=
  mkURLPolicyFile { protocol := "http", hostname := "example.com", port := 80, path := "/crossdomain.xml" }

/-- A manager with one pending registration for example.com. -/
def sampleManager : SecurityManager :=
  { pendingURLPolicyFiles := [("example.com", sampleMasterFile)]
    loadedURLPolicyFiles := []
    sandboxType := SANDBOXTYPE.REMOTE
    exactSettings := false
    exactSettingsLocked := false
    origin := { protocol := "http", hostname := "origin.example", port := 80, path := "/index.swf" } }

/-- A manager running local-with-file content whose origin document sits in
/home/user/app/. -/
def sampleLocalManager : SecurityManager :=
  { pendingURLPolicyFiles := []
    loadedURLPolicyFiles := []
    sandboxType := SANDBOXTYPE.LOCAL_WITH_FILE
    exactSettings := false
    exactSettingsLocked := false
    origin := { protocol := "file", hostname := "", port := 0, path := "/home/user/app/index.swf" } }

/-- A local URL outside the origin document directory. -/
def sampleLocalURL : URLInfo :=
  { protocol := "file", hostname := "", port := 0, path := "/etc/passwd" }

/-- evaluateSandboxURL returns ALLOWED or one of its two sandbox denials. -/
theorem SecurityManager.evaluateSandboxURL_range (st : SecurityManager) (url : URLInfo)
    (aR aL : Nat) :
    st.evaluateSandboxURL url aR aL = EVALUATIONRESULT.ALLOWED ∨
    st.evaluateSandboxURL url aR aL = EVALUATIONRESULT.NA_REMOTE_SANDBOX ∨
    st.evaluateSandboxURL url aR aL = EVALUATIONRESULT.NA_LOCAL_SANDBOX := by
  unfold SecurityManager.evaluateSandboxURL
  split <;> split <;> simp

/-- evaluateLocalDirectoryURL returns ALLOWED or the directory denial. -/
theorem SecurityManager.evaluateLocalDirectoryURL_range (st : SecurityManager) (url : URLInfo) :
    st.evaluateLocalDirectoryURL url = EVALUATIONRESULT.ALLOWED ∨
    st.evaluateLocalDirectoryURL url = EVALUATIONRESULT.NA_RESTRICT_LOCAL_DIRECTORY := by
  unfold SecurityManager.evaluateLocalDirectoryURL
  split <;> simp

/-- evaluatePoliciesURL returns ALLOWED or the cross-domain denial. -/
theorem SecurityManager.evaluatePoliciesURL_range (st : SecurityManager) (url : URLInfo)
    (lpp : Bool) :
    st.evaluatePoliciesURL url lpp = EVALUATIONRESULT.ALLOWED ∨
    st.evaluatePoliciesURL url lpp = EVALUATIONRESULT.NA_CROSSDOMAIN_POLICY := by
  unfold SecurityManager.evaluatePoliciesURL
  split
  · left; rfl
  · exact ite_eq_or_eq _ _ _

/-- C2: isMaster is decided by the path of the originally requested URL being
exactly /crossdomain.xml; the https example.com master reports true, the
/sub/crossdomain.xml file reports false, and following a redirect never changes
the isMaster verdict. -/
theorem URLPolicyFile.isMaster_spec :
    (∀ f : URLPolicyFile, f.isMaster = true ↔ f.originalURL.path = "/crossdomain.xml") ∧
    (mkURLPolicyFile
      { protocol := "https", hostname := "example.com", port := 443,
        path := "/crossdomain.xml" }).isMaster = true ∧
    (mkURLPolicyFile
      { protocol := "https", hostname := "example.com", port := 443,
        path := "/sub/crossdomain.xml" }).isMaster = false ∧
    (∀ (f : URLPolicyFile) (eff : URLInfo), (f.followRedirect eff).isMaster = f.isMaster) := by
  refine ⟨fun f => ?_, by decide, by decide, fun f eff => rfl⟩
  simp [URLPolicyFile.isMaster]

/-- C3: allowsAccessFrom holds exactly when the file is valid, not ignored, and
some grant matches the origin host by domain pattern, matches the target port
for non-HTTP subtypes, and is secure-compatible with the target scheme; an
invalid or ignored file authorizes nothing. -/
theorem URLPolicyFile.allowsAccessFrom_spec :
    ∀ (f : URLPolicyFile) (url toURL : URLInfo),
      (f.allowsAccessFrom url toURL = true ↔
        (f.valid = true ∧ f.ignore = false ∧
          ∃ g ∈ f.allowAccessFrom,
            matchesDomain g.domain url.hostname = true ∧
            (f.subtype = SUBTYPE.HTTP ∨ ∃ r ∈ g.toPorts, r.matches toURL.port = true) ∧
            (toURL.protocol = "https" → g.secure = true))) ∧
      ({ f with valid := false } : URLPolicyFile).allowsAccessFrom url toURL = false ∧
      ({ f with ignore := true } : URLPolicyFile).allowsAccessFrom url toURL = false := by
  intro f url toURL
  refine ⟨?_, rfl, by simp [URLPolicyFile.allowsAccessFrom]⟩
  simp only [URLPolicyFile.allowsAccessFrom, Bool.and_eq_true, Bool.not_eq_true',
    List.any_eq_true, Bool.or_eq_true, beq_iff_eq, bne_iff_ne, ne_eq, and_assoc]
  constructor
  · rintro ⟨hv, hi, g, hg, hdom, hport, hsec⟩
    exact ⟨hv, hi, g, hg, hdom, hport, fun hh => hsec.resolve_left (not_not_intro hh)⟩
  · rintro ⟨hv, hi, g, hg, hdom, hport, hsec⟩
    refine ⟨hv, hi, g, hg, hdom, hport, ?_⟩
    by_cases hh : toURL.protocol = "https"
    · exact Or.inr (hsec hh)
    · exact Or.inl hh

/-- C4: the tiny_string overload of evaluateURL forwards to the URLInfo
overload without its restrictLocalDirectory argument, so its result does not
depend on that argument. -/
theorem SecurityManager.evaluateURLStr_restrict_independent :
    ∀ (st : SecurityManager) (url : String) (lpp : Bool) (aR aL : Nat) (b1 b2 : Bool),
      st.evaluateURLStr url lpp aR aL b1 = st.evaluateURLStr url lpp aR aL b2 :=
  fun _ _ _ _ _ _ _ => rfl

/-- C5: the range branch of PortRange::matches as written in the source denies
port 90 for the range 80-100, although 80 <= 90 and 90 <= 100; the comparison
startPort >= port && endPort <= port is inverted from the inclusive-range
contract. -/
theorem PortRange.matches_range_inverted :
    (PortRange.mk 80 100 true false).matches 90 = false ∧ 80 ≤ 90 ∧ 90 ≤ 100 := by
  decide

/-- A call of setExactSettings with locked=true leaves the lock set. -/
theorem SecurityManager.setExactSettings_locks (st : SecurityManager) (s : Bool) :
    (st.setExactSettings s true).exactSettingsLocked = true := by
  unfold SecurityManager.setExactSettings
  split
  · assumption
  · rfl

/-- Once the lock is set, setExactSettings is the identity. -/
theorem SecurityManager.setExactSettings_of_locked (st : SecurityManager)
    (h : st.exactSettingsLocked = true) (s l : Bool) :
    st.setExactSettings s l = st := by
  simp [SecurityManager.setExactSettings, h]

/-- Once the lock is set, a whole sequence of setter calls is the identity. -/
theorem applySettingsCalls_of_locked (calls : List (Bool × Bool)) (st : SecurityManager)
    (h : st.exactSettingsLocked = true) :
    applySettingsCalls calls st = st := by
  induction calls with
  | nil => rfl
  | cons c cs ih =>
    show applySettingsCalls cs (st.setExactSettings c.1 c.2) = st
    rw [SecurityManager.setExactSettings_of_locked st h c.1 c.2, ih]

/-- C7: the ExactSettings flag is a one-shot latch: whatever calls precede it,
once some call passes locked=true, every later sequence of setter calls leaves
the manager state, in particular the stored exactSettings value and the locked
flag, unchanged. -/
theorem SecurityManager.setExactSettings_latch :
    ∀ (st : SecurityManager) (pre post : List (Bool × Bool)) (s : Bool),
      applySettingsCalls post ((applySettingsCalls pre st).setExactSettings s true) =
        (applySettingsCalls pre st).setExactSettings s true :=
  fun st pre post s =>
    applySettingsCalls_of_locked post _
      (SecurityManager.setExactSettings_locks (applySettingsCalls pre st) s)

/-- C8: evaluateSandbox is the nonzero test of the bitwise conjunction of the
sandbox bit-flag with the allowed mask, and the single-argument overload applies
it to the active sandbox type. -/
theorem SecurityManager.evaluateSandbox_spec :
    (∀ (S : SANDBOXTYPE) (M : Nat),
      SecurityManager.evaluateSandbox S M = true ↔ Nat.land S.val M ≠ 0) ∧
    (∀ (st : SecurityManager) (M : Nat),
      st.evaluateSandboxCurrent M = SecurityManager.evaluateSandbox st.sandboxType M) := by
  refine ⟨fun S M => ?_, fun st M => rfl⟩
  simp [SecurityManager.evaluateSandbox]

/-- C10: a match-all PortRange matches every port of the 16-bit range, and a
non-range non-match-all PortRange matches a port only when it equals the stored
startPort. -/
theorem PortRange.matches_matchAll_exact_spec :
    ∀ (s e : Nat) (r : Bool) (p : Nat), p ≤ 65535 →
      (PortRange.mk s e r true).matches p = true ∧
      ((PortRange.mk s e false false).matches p = true ↔ p = s) := by
  intro s e r p _
  refine ⟨rfl, ?_⟩
  simp [PortRange.matches]
  exact eq_comm

/-- C10 witness: the match-all range matches port 80, and the exact range for
port 5 matches 80 only if 80 = 5. -/
theorem PortRange.matches_matchAll_exact_spec_witness :
    (PortRange.mk 5 9 true true).matches 80 = true ∧
    ((PortRange.mk 5 9 false false).matches 80 = true ↔ 80 = 5) :=
  PortRange.matches_matchAll_exact_spec 5 9 true 80 (by decide)

/-- C1: evaluateURL applies the sandbox check, then (for a local URL under
restrictLocalDirectory) the local-directory check, then the policy check, in
that order, short-circuiting with the distinct failure value of the first
failing check, and returns ALLOWED exactly when no check fails. -/
theorem SecurityManager.evaluateURL_check_order :
    ∀ (st : SecurityManager) (url : URLInfo) (lpp : Bool) (aR aL : Nat) (rld : Bool),
      (st.evaluateURL url lpp aR aL rld = EVALUATIONRESULT.ALLOWED ↔
        (st.evaluateSandboxURL url aR aL = EVALUATIONRESULT.ALLOWED ∧
         ((url.isLocal && rld) = true →
            st.evaluateLocalDirectoryURL url = EVALUATIONRESULT.ALLOWED) ∧
         st.evaluatePoliciesURL url lpp = EVALUATIONRESULT.ALLOWED)) ∧
      (st.evaluateSandboxURL url aR aL ≠ EVALUATIONRESULT.ALLOWED →
        (st.evaluateURL url lpp aR aL rld = st.evaluateSandboxURL url aR aL ∧
         (st.evaluateSandboxURL url aR aL = EVALUATIONRESULT.NA_REMOTE_SANDBOX ∨
          st.evaluateSandboxURL url aR aL = EVALUATIONRESULT.NA_LOCAL_SANDBOX))) ∧
      (st.evaluateSandboxURL url aR aL = EVALUATIONRESULT.ALLOWED →
        (url.isLocal && rld) = true →
        st.evaluateLocalDirectoryURL url ≠ EVALUATIONRESULT.ALLOWED →
        st.evaluateURL url lpp aR aL rld = EVALUATIONRESULT.NA_RESTRICT_LOCAL_DIRECTORY) ∧
      (st.evaluateSandboxURL url aR aL = EVALUATIONRESULT.ALLOWED →
        ((url.isLocal && rld) = true →
           st.evaluateLocalDirectoryURL url = EVALUATIONRESULT.ALLOWED) →
        st.evaluatePoliciesURL url lpp ≠ EVALUATIONRESULT.ALLOWED →
        st.evaluateURL url lpp aR aL rld = EVALUATIONRESULT.NA_CROSSDOMAIN_POLICY) := by
  intro st url lpp aR aL rld
  rcases SecurityManager.evaluateSandboxURL_range st url aR aL with hs | hs | hs <;>
    rcases SecurityManager.evaluateLocalDirectoryURL_range st url with hd | hd <;>
      rcases SecurityManager.evaluatePoliciesURL_range st url lpp with hp | hp <;>
        cases hb : (url.isLocal && rld) <;>
          simp [SecurityManager.evaluateURL, hs, hd, hp, hb]

/-- C1 witness: with a local-with-file sandbox allowed by the local mask, a
local URL outside the origin directory is denied by the directory check. -/
theorem SecurityManager.evaluateURL_check_order_witness :
    sampleLocalManager.evaluateSandboxURL sampleLocalURL 1 2 = EVALUATIONRESULT.ALLOWED ∧
    sampleLocalManager.evaluateURL sampleLocalURL true 1 2 true =
      EVALUATIONRESULT.NA_RESTRICT_LOCAL_DIRECTORY :=
  ⟨by decide,
   (SecurityManager.evaluateURL_check_order sampleLocalManager sampleLocalURL true 1 2 true).2.2.1
     (by decide) (by decide) (by decide)⟩

/-- find? skips a leading block on which the predicate is everywhere false. -/
theorem find?_append_left_none {α : Type} (p : α → Bool) (l1 l2 : List α)
    (h : ∀ x ∈ l1, p x = false) : (l1 ++ l2).find? p = l2.find? p := by
  induction l1 with
  | nil => rfl
  | cons a as ih =>
    rw [List.cons_append, List.find?_cons_of_neg _ (by simp [h a (List.mem_cons_self a as)])]
    exact ih (fun x hx => h x (List.mem_cons_of_mem a hx))

/-- C6: loadPolicyFile moves a registered file from the pending map to the
loaded map: afterwards the file is absent from the pending map, it is present
in the loaded bucket of its domain, getURLPolicyFileByURL on its URL finds the
loaded instance, and the two maps stay disjoint, given well-formed bucket keys,
per-URL uniqueness of the registration, map disjointness beforehand, the file
not yet loaded and not yet in the loaded map. -/
theorem SecurityManager.loadPolicyFile_registry_spec :
    ∀ (st : SecurityManager) (f : URLPolicyFile),
      st.keysWellFormed →
      st.urlUniqueFor f →
      st.mapsDisjoint →
      (∀ q ∈ st.loadedURLPolicyFiles, q.2 ≠ f) →
      f.loaded = false →
      (∀ p ∈ (st.loadPolicyFile f).pendingURLPolicyFiles, p.2 ≠ f) ∧
      ((f.url.hostname, loadFile f) ∈ (st.loadPolicyFile f).loadedURLPolicyFiles) ∧
      (st.loadPolicyFile f).getURLPolicyFileByURL f.url = some (loadFile f) ∧
      (st.loadPolicyFile f).mapsDisjoint := by
  intro st f hkeys huniq hdisj hnotloaded hunloaded
  have hpuniq : ∀ p ∈ st.pendingURLPolicyFiles, p.2.url = f.url → p.2 = f :=
    fun p hp => huniq p (List.mem_append_left _ hp)
  have hluniq : ∀ q ∈ st.loadedURLPolicyFiles, q.2.url = f.url → q.2 = f :=
    fun q hq => huniq q (List.mem_append_right _ hq)
  refine ⟨?_, ?_, ?_, ?_⟩
  · intro p hp heq
    have hpm := List.mem_of_mem_filter hp
    have hC := (List.mem_filter.mp hp).2
    have hk := hkeys p (List.mem_append_left _ hpm)
    rw [heq] at hk
    simp [hk, heq] at hC
  · simp [SecurityManager.loadPolicyFile]
  · show ((st.loadPolicyFile f).pendingForDomain f.url.hostname ++
        (st.loadPolicyFile f).loadedForDomain f.url.hostname).find?
        (fun g => g.url == f.url) = some (loadFile f)
    have hpend : ∀ g ∈ (st.loadPolicyFile f).pendingForDomain f.url.hostname,
        (g.url == f.url) = false := by
      intro g hg
      rcases List.mem_map.mp hg with ⟨p, hpmem, hpe⟩
      have hpm0 := List.mem_of_mem_filter hpmem
      have hC := (List.mem_filter.mp hpm0).2
      have hbucket := (List.mem_filter.mp hpmem).1
      have hpm := List.mem_of_mem_filter hbucket
      have hkey := (List.mem_filter.mp hpm0).2
      have hpf : p.2 ≠ f := by
        intro hpf
        have hk := hkeys p (List.mem_append_left _ hpm)
        rw [hpf] at hk
        simp [hk, hpf] at hC
      have : p.2.url ≠ f.url := fun hu => hpf (hpuniq p hpm hu)
      rw [← hpe]
      simp [this]
    rw [find?_append_left_none _ _ _ hpend]
    have hloadedForm : (st.loadPolicyFile f).loadedForDomain f.url.hostname =
        (st.loadedURLPolicyFiles.filter (fun p => p.1 == f.url.hostname)).map Prod.snd ++
          [loadFile f] := by
      show ((st.loadedURLPolicyFiles ++ [(f.url.hostname, loadFile f)]).filter
          (fun p => p.1 == f.url.hostname)).map Prod.snd = _
      rw [List.filter_append]
      simp
    rw [hloadedForm]
    have hloadnone : ∀ g ∈ (st.loadedURLPolicyFiles.filter
        (fun p => p.1 == f.url.hostname)).map Prod.snd, (g.url == f.url) = false := by
      intro g hg
      rcases List.mem_map.mp hg with ⟨q, hqmem, hqe⟩
      have hqm := List.mem_of_mem_filter hqmem
      have : q.2.url ≠ f.url := fun hu => hnotloaded q hqm (hluniq q hqm hu)
      rw [← hqe]
      simp [this]
    rw [find?_append_left_none _ _ _ hloadnone]
    simp [List.find?, loadFile]
  · intro p hp q hq
    have hpm := List.mem_of_mem_filter hp
    rcases List.mem_append.mp hq with hq1 | hq2
    · exact hdisj p hpm q hq1
    · have hq3 : q = (f.url.hostname, loadFile f) := by
        simpa using hq2
      rw [hq3]
      intro heq
      have h1 : p.2 = f := hpuniq p hpm (by rw [heq]; rfl)
      rw [h1] at heq
      have hl := congrArg URLPolicyFile.loaded heq
      rw [hunloaded] at hl
      simp [loadFile] at hl

/-- C6 witness: loading the pending example.com master registration makes it
findable by URL as the loaded instance. -/
theorem SecurityManager.loadPolicyFile_registry_spec_witness :
    (sampleManager.loadPolicyFile sampleMasterFile).getURLPolicyFileByURL sampleMasterFile.url =
      some (loadFile sampleMasterFile) :=
  (SecurityManager.loadPolicyFile_registry_spec sampleManager sampleMasterFile
    (by decide) (by decide) (by decide) (by decide) (by decide)).2.2.1

/-- Two ring positions within one window of the capacity are distinct. -/
theorem ring_index_ne (head i used size : Nat) (hi : i < used) (hu : used < size) :
    (head + i) % size ≠ (head + used) % size := by
  intro h
  have h1 : i ≡ used [MOD size] := Nat.ModEq.add_left_cancel (Nat.ModEq.refl head) h
  have h2 : i % size = used % size := h1
  rw [Nat.mod_eq_of_lt (hi.trans hu), Nat.mod_eq_of_lt hu] at h2
  omega

/-- Writing into free space preserves well-formedness. -/
theorem writeByte_wf (s : sync_stream) (b : Nat) (hwf : s.wf) (hlt : s.used < s.buf_size) :
    (s.writeByte b).wf := by
  obtain ⟨hl, hh, _⟩ := hwf
  refine ⟨?_, ?_, ?_⟩
  · show (s.buffer.set s.tail b).length = s.buf_size
    rw [List.length_set]
    exact hl
  · show s.head < s.buf_size
    exact hh
  · show s.used + 1 ≤ s.buf_size
    omega

/-- Reading available data preserves well-formedness. -/
theorem readByte_wf (s : sync_stream) (hwf : s.wf) (hpos : 0 < s.used) :
    (s.readByte).2.wf := by
  obtain ⟨hl, _, hu⟩ := hwf
  have hsize : 0 < s.buf_size := lt_of_lt_of_le hpos hu
  refine ⟨hl, ?_, ?_⟩
  · show (s.head + 1) % s.buf_size < s.buf_size
    exact Nat.mod_lt _ hsize
  · show s.used - 1 ≤ s.buf_size
    omega

/-- Writing one byte appends it to the readable contents. -/
theorem contents_writeByte (s : sync_stream) (b : Nat) (hwf : s.wf)
    (hlt : s.used < s.buf_size) :
    (s.writeByte b).contents = s.contents ++ [b] := by
  obtain ⟨hl, hh, hu⟩ := hwf
  have hsize : 0 < s.buf_size := Nat.lt_of_le_of_lt (Nat.zero_le _) hlt
  have htlt : s.tail < s.buffer.length := by
    rw [hl]
    exact Nat.mod_lt _ hsize
  unfold sync_stream.contents
  simp only [sync_stream.writeByte]
  rw [List.range_succ, List.map_append]
  congr 1
  · apply List.map_congr_left
    intro i hi
    have hi' := List.mem_range.mp hi
    have hne : s.tail ≠ (s.head + i) % s.buf_size :=
      (ring_index_ne s.head i s.used s.buf_size hi' hlt).symm
    simp only [List.getD_eq_getElem?_getD]
    rw [List.getElem?_set_ne hne]
  · simp only [List.map_cons, List.map_nil]
    rw [show (s.head + s.used) % s.buf_size = s.tail from rfl]
    rw [List.getD_eq_getElem?_getD, List.getElem?_set_self htlt]
    rfl

/-- Reading one byte takes the oldest readable byte off the front. -/
theorem contents_readByte (s : sync_stream) (hwf : s.wf) (hpos : 0 < s.used) :
    s.contents = (s.readByte).1 :: (s.readByte).2.contents := by
  obtain ⟨_, hh, _⟩ := hwf
  unfold sync_stream.contents
  simp only [sync_stream.readByte]
  have hs : s.used = (s.used - 1) + 1 := by omega
  conv_lhs => rw [hs]
  rw [List.range_succ_eq_map, List.map_cons, List.map_map]
  congr 1
  · simp [Nat.mod_eq_of_lt hh]
  · apply List.map_congr_left
    intro i _
    simp only [Function.comp]
    congr 1
    rw [Nat.mod_add_mod]
    congr 1
    omega

/-- Any valid interleaved run conserves the written bytes in order: the bytes
already read, then the readable bytes, then the bytes still to write always
equal the initial such concatenation. -/
theorem runSchedule_conserve :
    ∀ (sched : List Bool) (s : sync_stream) (toWrite acc : List Nat)
      (sf : sync_stream) (twf out : List Nat),
      s.wf → runSchedule sched s toWrite acc = some (sf, twf, out) →
      sf.wf ∧ out ++ sf.contents ++ twf = acc ++ s.contents ++ toWrite := by
  intro sched
  induction sched with
  | nil =>
    intro s toWrite acc sf twf out hwf hrun
    simp only [runSchedule, Option.some.injEq, Prod.mk.injEq] at hrun
    obtain ⟨h1, h2, h3⟩ := hrun
    subst h1
    subst h2
    subst h3
    exact ⟨hwf, rfl⟩
  | cons step rest ih =>
    intro s toWrite acc sf twf out hwf hrun
    cases step
    · simp only [runSchedule] at hrun
      split at hrun
      · rename_i hpos
        have h := ih _ _ _ _ _ _ (readByte_wf s hwf hpos) hrun
        refine ⟨h.1, ?_⟩
        rw [h.2, contents_readByte s hwf hpos]
        simp
      · simp at hrun
    · cases toWrite with
      | nil => simp [runSchedule] at hrun
      | cons b bs =>
        simp only [runSchedule] at hrun
        split at hrun
        · rename_i hlt
          have h := ih _ _ _ _ _ _ (writeByte_wf s b hwf hlt) hrun
          refine ⟨h.1, ?_⟩
          rw [h.2, contents_writeByte s b hwf hlt]
          simp
        · simp at hrun

/-- C9: on a single-producer/single-consumer pair, any valid interleaving that
writes all N bytes of a sequence and reads N bytes from an initially empty ring
of positive capacity yields exactly the original byte sequence, in order: no
byte is reordered, duplicated, or lost. -/
theorem sync_stream_fifo :
    ∀ (cap : Nat) (bs : List Nat) (sched : List Bool) (sf : sync_stream) (out : List Nat),
      0 < cap →
      runSchedule sched (initStream cap) bs [] = some (sf, [], out) →
      sf.used = 0 →
      out = bs := by
  intro cap bs sched sf out hcap hrun hused
  have hwf : (initStream cap).wf := by
    refine ⟨?_, hcap, Nat.zero_le cap⟩
    show (List.replicate cap 0).length = cap
    exact List.length_replicate cap 0
  have h := runSchedule_conserve sched (initStream cap) bs [] sf [] out hwf hrun
  have hc : sf.contents = [] := by
    unfold sync_stream.contents
    rw [hused]
    rfl
  have hc0 : (initStream cap).contents = [] := by
    unfold sync_stream.contents
    rfl
  have h2 := h.2
  rw [hc, hc0] at h2
  simpa using h2

/-- C9 witness: on a capacity-4 ring, write-then-read runs of 2 bytes (below
capacity), 4 bytes (exactly capacity) and 8 bytes (twice the capacity, with the
cursors wrapping around) each return the written sequence. -/
theorem sync_stream_fifo_witness :
    ([1, 2] : List Nat) = [1, 2] ∧
    ([1, 2, 3, 4] : List Nat) = [1, 2, 3, 4] ∧
    ([1, 2, 3, 4, 5, 6, 7, 8] : List Nat) = [1, 2, 3, 4, 5, 6, 7, 8] :=
  ⟨sync_stream_fifo 4 [1, 2] [true, true, false, false]
      ⟨4, [1, 2, 0, 0], 2, 0⟩ [1, 2] (by decide) (by decide) (by decide),
   sync_stream_fifo 4 [1, 2, 3, 4]
      [true, true, true, true, false, false, false, false]
      ⟨4, [1, 2, 3, 4], 0, 0⟩ [1, 2, 3, 4] (by decide) (by decide) (by decide),
   sync_stream_fifo 4 [1, 2, 3, 4, 5, 6, 7, 8]
      [true, true, true, true, false, false, false, false,
       true, true, true, true, false, false, false, false]
      ⟨4, [5, 6, 7, 8], 0, 0⟩ [1, 2, 3, 4, 5, 6, 7, 8] (by decide) (by decide) (by decide)⟩
